import Mathlib

/-!
# A verification model of YASP's build script (`build/build.py`)

This file gives a shallow embedding of the YASP static-site build script and
proves properties of it.  The script is a linear pipeline: dependency guards,
source-file existence checks, configuration validation, theme/font resolution,
stylesheet compilation, section rendering, image inlining, and placeholder
substitution into a page template.

Modelling conventions:
* Python strings are `List Char`; `str.replace` is `repl` (greedy left-to-right
  non-overlapping replacement, continuing after the replaced text).
* Parsed YAML documents are values of the inductive type `Y`
  (strings, integers, `None`, and string-keyed mappings in insertion order).
* The filesystem, the `mimetypes.guess_type` table and the `sass.compile`
  call are oracles packaged in the structure `FS`.
* A run of the script is `build : FS → Y → BuildOutcome`: it either terminates
  via `sys.exit` (`exited code msg`), crashes with an uncaught Python
  exception (`raised e`), or completes (`finished`), recording whether the
  `dist` directory was created and the list of file writes performed.
* Python `in` / subscription on values that are not mappings is modelled as a
  `TypeError`; the string-containment special case of `in` on `str` receivers
  is not exercised by the script on any input considered here.
* File paths in user-facing messages are rendered relative to the repository
  root (the script renders them from its own absolute location).
-/

namespace YASP

/-! ## Python `str.replace` on `List Char` -/

/-- Fuel-driven worker for `str.replace`: scan left to right, replace each
non-overlapping occurrence of `p` by `v`, continue scanning after the
replaced text.  The fuel only serves to make the recursion structural. -/
def replF (p v : List Char) : Nat → List Char → List Char
  | _, [] => []
  | 0, t => t
  | Nat.succ fuel, c :: cs =>
    if List.isPrefixOf p (c :: cs) then
      v ++ replF p v fuel (List.drop (p.length - 1) cs)
    else
      c :: replF p v fuel cs

/-- Python `t.replace(p, v)` for a non-empty pattern `p`
(`build.py` line 215 uses it with patterns of the form `BUILDER:<key>`). -/
def repl (p v t : List Char) : List Char :=
  replF p v t.length t

/-- The marker token for a replacement key: `f"BUILDER:{key}"` (line 215). -/
def tokenOf (key : List Char) : List Char :=
  "BUILDER:".toList ++ key

/-- The substitution loop of lines 214-215: successive whole-string
replacement of each token by its value, in list order. -/
def applyReplacements (t : List Char) (m : List (List Char × List Char)) : List Char :=
  m.foldl (fun acc kv => repl (tokenOf kv.1) kv.2 acc) t

/-- Whether `p` occurs as a contiguous run inside `v`. -/
def occursIn (p : List Char) : List Char → Bool
  | [] => p.isEmpty
  | c :: cs => List.isPrefixOf p (c :: cs) || occursIn p cs

/-- `blocksTokB v p = true` says the replacement text `v` cannot interact with
occurrences of the pattern `p`: `v` is non-empty, its first and last
characters do not occur in `p`, and `p` does not occur inside `v`.  Splicing
such a `v` into any text neither creates nor completes an occurrence of `p`
across the splice boundaries. -/
def blocksTokB (v p : List Char) : Bool :=
  !v.isEmpty &&
    (match v.head? with | some c => !p.contains c | none => true) &&
    (match v.getLast? with | some c => !p.contains c | none => true) &&
    !(occursIn p v)

/-! ## base64 and the image inliner (`image_to_data_url`, lines 34-40) -/

/-- The base64 alphabet used by `base64.b64encode`. -/
def b64Table : List Char :=
  "ABCDEFGHIJKLMNOPQRSTUVWXYZabcdefghijklmnopqrstuvwxyz0123456789+/".toList

/-- The base64 digit for a 6-bit group. -/
def b64Char (n : Nat) : Char :=
  b64Table.getD n '='

/-- Index of a character in the base64 alphabet. -/
def b64CharIndex (c : Char) : Nat :=
  b64Table.indexOf c

/-- `base64.b64encode` on a byte list: 3 input bytes become 4 output digits,
with `=` padding for a trailing group of 1 or 2 bytes. -/
def b64encode : List Nat → List Char
  | [] => []
  | [a] =>
    [b64Char (a / 4), b64Char (a % 4 * 16), '=', '=']
  | [a, b] =>
    [b64Char (a / 4), b64Char (a % 4 * 16 + b / 16), b64Char (b % 16 * 4), '=']
  | a :: b :: c :: rest =>
    [b64Char (a / 4), b64Char (a % 4 * 16 + b / 16), b64Char (b % 16 * 4 + c / 64),
      b64Char (c % 64)] ++ b64encode rest

/-- base64 decoding, the inverse reading of `b64encode`. -/
def b64decode : List Char → List Nat
  | c1 :: c2 :: c3 :: c4 :: rest =>
    let n1 := b64CharIndex c1
    let n2 := b64CharIndex c2
    if c3 = '=' then
      [n1 * 4 + n2 / 16]
    else
      let n3 := b64CharIndex c3
      if c4 = '=' then
        [n1 * 4 + n2 / 16, n2 % 16 * 16 + n3 / 4]
      else
        [n1 * 4 + n2 / 16, n2 % 16 * 16 + n3 / 4, n3 % 4 * 64 + b64CharIndex c4]
          ++ b64decode rest
  | _ => []

/-- Rendering of `mimetypes.guess_type`'s result inside the f-string of
line 40: a recognized type prints itself, `None` prints as `"None"`. -/
def pyOptionalMime : Option (List Char) → List Char
  | some m => m
  | none => "None".toList

/-- `image_to_data_url` (lines 34-40): `f"data:{mimetype};base64,{encoded}"`
where `mimetype` is `mimetypes.guess_type`'s answer for the path and
`encoded` is the base64 encoding of the file's bytes. -/
def image_to_data_url (mimetype : Option (List Char)) (contents : List Nat) : List Char :=
  "data:".toList ++ pyOptionalMime mimetype ++ ";base64,".toList ++ b64encode contents

/-! ## Parsed YAML values -/

/-- A parsed YAML value as `yaml.safe_load` returns it, restricted to the
shapes the script manipulates: strings, integers, `None`, and mappings with
string keys in insertion order. -/
inductive Y where
  | str (s : List Char) : Y
  | int (n : Int) : Y
  | null : Y
  | map (m : List (List Char × Y)) : Y

/-- Python `dict` lookup (`cfg[k]` / `k in cfg`) on the entry list of a
mapping. -/
def lookupY : List (List Char × Y) → List Char → Option Y
  | [], _ => none
  | (k, v) :: rest, key => if k = key then some v else lookupY rest key

mutual

/-- Python `repr` of a value, as used for elements inside a container. -/
def pyRepr : Y → List Char
  | .str s => '\'' :: s ++ ['\'']
  | .int n => (toString n).toList
  | .null => "None".toList
  | .map m => '{' :: pyReprEntries m ++ ['}']

/-- Python `repr` of a dict body, comma-separated `key: value` entries. -/
def pyReprEntries : List (List Char × Y) → List Char
  | [] => []
  | (k, v) :: rest =>
    '\'' :: k ++ "': ".toList ++ pyRepr v ++
      (if rest.isEmpty then [] else ", ".toList) ++ pyReprEntries rest

end

/-- Python `str()` of a value, as f-string interpolation renders it. -/
def pyStr : Y → List Char
  | .str s => s
  | .int n => (toString n).toList
  | .null => "None".toList
  | .map m => '{' :: pyReprEntries m ++ ['}']

/-- Uncaught Python exceptions the script can die with. -/
inductive PyErr where
  | keyError (key : List Char)
  | typeError
  | attributeError
deriving DecidableEq

/-! ## Section renderer (lines 177-192) -/

/-- The inner loop of line 184-185: one `<li>` per link.  `link_data["icon"]`
and `link_data["url"]` are evaluated in that order and raise `KeyError` when
absent; subscripting a non-mapping raises `TypeError`. -/
def renderLinks : List (List Char × Y) → Except PyErr (List Char)
  | [] => .ok []
  | (linkName, linkData) :: rest =>
    match linkData with
    | .map lm =>
      match lookupY lm ("icon".toList) with
      | none => .error (.keyError ("icon".toList))
      | some icon =>
        match lookupY lm ("url".toList) with
        | none => .error (.keyError ("url".toList))
        | some url =>
          match renderLinks rest with
          | .error e => .error e
          | .ok restHtml =>
            .ok ("\t\t<li data-icon=\"".toList ++ pyStr icon ++
              "\"><a href=\"".toList ++ pyStr url ++ "\">".toList ++
              linkName ++ "</a></li>\n".toList ++ restHtml)
    | _ => .error .typeError

/-- The opening of a section block (line 182). -/
def sectionOpen (name : List Char) : List Char :=
  "<section>\n\t<h3>".toList ++ name ++
    "</h3>\n\t<div class=\"sep\"></div>\n\t<ul>\n".toList

/-- The closing of a section block (line 187). -/
def sectionClose : List Char :=
  "\t</ul>\n</section>\n".toList

/-- The extra separator block appended after odd-position sections
(line 192). -/
def sepBlock : List Char :=
  "<div class=\"sep\"></div>\n".toList

/-- The section loop of lines 181-192: each section contributes a block, the
counter is incremented, and when it is odd an extra separator is appended.
`links.items()` on a non-mapping raises `AttributeError`. -/
def sectionsLoop : List (List Char × Y) → Nat → Except PyErr (List Char)
  | [], _ => .ok []
  | (name, links) :: rest, counter =>
    match links with
    | .map lm =>
      match renderLinks lm with
      | .error e => .error e
      | .ok items =>
        match sectionsLoop rest (counter + 1) with
        | .error e => .error e
        | .ok restHtml =>
          .ok (sectionOpen name ++ items ++ sectionClose ++
            (if (counter + 1) % 2 == 1 then sepBlock else []) ++ restHtml)
    | _ => .error .attributeError

/-- One section's block without any trailing separator (specification-side
view of lines 182-187, used to state the odd-position separator rule). -/
def renderSectionBlock : List Char × Y → Except PyErr (List Char)
  | (name, .map lm) =>
    match renderLinks lm with
    | .error e => .error e
    | .ok items => .ok (sectionOpen name ++ items ++ sectionClose)
  | _ => .error .attributeError

/-- Specification-side: the blocks of all sections in order, propagating the
first rendering error. -/
def sectionBlocks : List (List Char × Y) → Except PyErr (List (List Char))
  | [] => .ok []
  | s :: rest =>
    match renderSectionBlock s with
    | .error e => .error e
    | .ok b =>
      match sectionBlocks rest with
      | .error e => .error e
      | .ok bs => .ok (b :: bs)

/-- Specification-side assembly: concatenate the given blocks in order,
appending one extra separator right after every block whose 1-based position
is odd. -/
def interleaveSeps : Nat → List (List Char) → List Char
  | _, [] => []
  | pos, b :: rest =>
    b ++ (if pos % 2 == 1 then sepBlock else []) ++ interleaveSeps (pos + 1) rest

/-- Whether every link value of a links mapping is itself a mapping. -/
def linksWellShaped (lm : List (List Char × Y)) : Bool :=
  lm.all fun l =>
    match l.2 with
    | .map _ => true
    | _ => false

/-- Whether some link's data mapping lacks an `icon` or a `url` entry. -/
def linkFieldMissing (lm : List (List Char × Y)) : Bool :=
  lm.any fun l =>
    match l.2 with
    | .map dm =>
      !((lookupY dm ("icon".toList)).isSome && (lookupY dm ("url".toList)).isSome)
    | _ => false

/-- Whether every section's links value is a mapping of link mappings. -/
def sectionsWellShaped (secs : List (List Char × Y)) : Bool :=
  secs.all fun kv =>
    match kv.2 with
    | .map lm => linksWellShaped lm
    | _ => false

/-- Whether some section has a link whose data mapping lacks `icon` or
`url`. -/
def someLinkFieldMissing (secs : List (List Char × Y)) : Bool :=
  secs.any fun kv =>
    match kv.2 with
    | .map lm => linkFieldMissing lm
    | _ => false

/-! ## Exit codes and messages -/

/-- Exit status when PyYAML cannot be imported (line 15). -/
def exitPyyamlMissing : Nat := 1

/-- Exit status when libsass cannot be imported (line 26). -/
def exitLibsassMissing : Nat := 1

/-- Exit status when `index.html` or `style.scss` is absent (lines 54, 58). -/
def exitMissingSourceFile : Nat := 2

/-- Exit status when `config.yaml` is absent (line 62). -/
def exitMissingConfigFile : Nat := 3

/-- Exit status of `config_error` (line 31). -/
def exitConfigError : Nat := 3

/-- Exit status when the theme directory or `theme.scss` is absent
(lines 80, 86). -/
def exitMissingTheme : Nat := 4

/-- Exit status when the font directory or `font.scss` is absent
(lines 99, 105). -/
def exitMissingFont : Nat := 5

/-- Exit status when the configured image file is absent (line 117). -/
def exitMissingImage : Nat := 6

/-- Exit status when `sass.compile` reports an error (line 168). -/
def exitSassFailure : Nat := 7

/-- An apostrophe character, used inside several user-facing messages. -/
def apos : Char := '\''

/-- The trailer `config_error` appends to every message (line 30). -/
def docRefMsg : List Char :=
  "\nRefer to the documentation for instructions on how to correctly create a config file.".toList

/-- The `Key "<path>" not found in config.` message text. -/
def keyNotFoundMsg (path : List Char) : List Char :=
  "Key \"".toList ++ path ++ "\" not found in config.".toList

/-- Message of line 53. -/
def missingIndexMsg : List Char :=
  "Could not find source file build/sources/index.html which is required for building.".toList

/-- Message of line 57. -/
def missingStyleMsg : List Char :=
  "Could not find source file build/sources/style.scss which is required for building.".toList

/-- Message of line 61. -/
def missingConfigMsg : List Char :=
  "Could not find a config file at build/config.yaml which is required for building.".toList

/-- Message of line 79. -/
def themeMissingMsg (n : List Char) : List Char :=
  "Theme \"".toList ++ n ++ "\" doesn".toList ++ apos ::
    "t exist!\nMake sure there are no typos in the config file or the theme directory name and that the theme exists at themes/".toList ++
    n ++ ".".toList

/-- Message of line 85. -/
def themeFileMissingMsg (n : List Char) : List Char :=
  "The directory for the \"".toList ++ n ++
    "\" theme exists, but there is no theme.scss file inside it!\nMake sure there is no typo in the name of the file.".toList

/-- Message of line 98. -/
def fontMissingMsg (n : List Char) : List Char :=
  "Font \"".toList ++ n ++ "\" doesn".toList ++ apos ::
    "t exist!\nMake sure there are no typos in the config file or the font directory name and that the font exists at fonts/".toList ++
    n ++ ".".toList

/-- Message of line 104. -/
def fontFileMissingMsg (n : List Char) : List Char :=
  "The directory for the \"".toList ++ n ++
    "\" font exists, but there is no font.scss file inside it!\nMake sure there is no typo in the name of the file.".toList

/-- Message of line 116. -/
def imageMissingMsg (p : List Char) : List Char :=
  "The image specified (\"".toList ++ p ++ "\") doesn".toList ++ apos ::
    "t exist!\nMake sure there is no typo in the config file or the target image file name.".toList

/-- Message of lines 166-167 followed by the compiler's error text. -/
def sassFailureMsg (e : List Char) : List Char :=
  "\nFailed to compile your theme/font:\n".toList ++ e

/-! ## The build pipeline -/

/-- The oracles a run consumes: which files exist, their contents, the MIME
table, and the delegated `sass.compile` call. -/
structure FS where
  indexExists : Bool
  styleExists : Bool
  configExists : Bool
  themeDirExists : List Char → Bool
  themeFileExists : List Char → Bool
  fontDirExists : List Char → Bool
  fontFileExists : List Char → Bool
  imageExists : List Char → Bool
  themeContent : List Char → List Char
  fontContent : List Char → List Char
  styleContent : List Char
  indexContent : List Char
  imageBytes : List Char → List Nat
  mimeOf : List Char → Option (List Char)
  sassCompile : List Char → Except (List Char) (List Char)
  distDirExists : Bool

/-- How a run of the script ends. -/
inductive BuildOutcome where
  | exited (code : Nat) (msg : List Char)
  | raised (e : PyErr)
  | finished (madeDistDir : Bool) (writes : List (List Char × List Char))
deriving DecidableEq

/-- The `sys.exit` status of an outcome, when it is a clean exit. -/
def BuildOutcome.exitCode : BuildOutcome → Option Nat
  | .exited code _ => some code
  | _ => none

/-- `config_error(msg)` (lines 29-31): print the message plus the fixed
trailer and exit with the configuration-error status. -/
def configErrorOutcome (msg : List Char) : BuildOutcome :=
  .exited exitConfigError (msg ++ docRefMsg)

/-- The fixed output path `dist/index.html` (line 220). -/
def distIndexPath : List Char :=
  "dist/index.html".toList

/-- `k in cfg` requires a mapping; on the shapes the script meets, a
non-mapping receiver raises `TypeError`. -/
def asContainerMap (v : Y) : Except BuildOutcome (List (List Char × Y)) :=
  match v with
  | .map m => .ok m
  | _ => .error (.raised .typeError)

/-- Using a value as a path component (`Path(...) / value` or
`Path(value)`) requires a string; otherwise Python raises `TypeError`. -/
def asPathName (v : Y) : Except BuildOutcome (List Char) :=
  match v with
  | .str s => .ok s
  | _ => .error (.raised .typeError)

/-- A presence check of the form
`if "<key>" not in m: config_error("Key \"<path>\" not found in config.")`
followed by the subscript `m["<key>"]`. -/
def requireKey (m : List (List Char × Y)) (key path : List Char) :
    Except BuildOutcome Y :=
  match lookupY m key with
  | some v => .ok v
  | none => .error (configErrorOutcome (keyNotFoundMsg path))

/-- Lines 71-88: require `look/theme`, resolve the theme directory and its
`theme.scss`, exiting with the theme status when either is absent. -/
def resolveTheme (fs : FS) (look : List (List Char × Y)) :
    Except BuildOutcome (List Char) :=
  match requireKey look ("theme".toList) ("look/theme".toList) with
  | .error o => .error o
  | .ok tv =>
    match asPathName tv with
    | .error o => .error o
    | .ok n =>
      if fs.themeDirExists n = false then
        .error (.exited exitMissingTheme (themeMissingMsg n))
      else if fs.themeFileExists n = false then
        .error (.exited exitMissingTheme (themeFileMissingMsg n))
      else .ok n

/-- Lines 90-107.  Note the slip in the source: the guard at line 91 tests
`"theme" not in config["look"]` again (reporting `look/theme`), so a missing
`look/font` key is not caught and the subscript at line 94 raises
`KeyError("font")`. -/
def resolveFont (fs : FS) (look : List (List Char × Y)) :
    Except BuildOutcome (List Char) :=
  match lookupY look ("theme".toList) with
  | none => .error (configErrorOutcome (keyNotFoundMsg ("look/theme".toList)))
  | some _ =>
    match lookupY look ("font".toList) with
    | none => .error (.raised (.keyError ("font".toList)))
    | some fv =>
      match asPathName fv with
      | .error o => .error o
      | .ok n =>
        if fs.fontDirExists n = false then
          .error (.exited exitMissingFont (fontMissingMsg n))
        else if fs.fontFileExists n = false then
          .error (.exited exitMissingFont (fontFileMissingMsg n))
        else .ok n

/-- Lines 109-119: require `look/image`, then check the file exists. -/
def resolveImage (fs : FS) (look : List (List Char × Y)) :
    Except BuildOutcome (List Char) :=
  match requireKey look ("image".toList) ("look/image".toList) with
  | .error o => .error o
  | .ok iv =>
    match asPathName iv with
    | .error o => .error o
    | .ok p =>
      if fs.imageExists p = false then
        .error (.exited exitMissingImage (imageMissingMsg p))
      else .ok p

/-- Lines 153-161: the stylesheet source handed to `sass.compile` — the
theme stylesheet, the font stylesheet and the base stylesheet concatenated
in that order, each of the first two followed by a newline. -/
def styleSource (fs : FS) (themeName fontName : List Char) : List Char :=
  fs.themeContent themeName ++ '\n' :: (fs.fontContent fontName ++ '\n' :: fs.styleContent)

/-- The replacement mapping of lines 201-209, in insertion order, holding the
raw configured values (which need not be strings) and the computed strings. -/
def replacementValues (langV : Y) (css : List Char) (titleV : Y)
    (dataUrl : List Char) (messageV : Y) (sectionsHtml : List Char)
    (placeholderV : Y) : List (List Char × Y) :=
  [ ("LANG".toList, langV),
    ("STYLES".toList, .str css),
    ("TITLE".toList, titleV),
    ("IMAGE".toList, .str dataUrl),
    ("MESSAGE".toList, messageV),
    ("SECTIONS".toList, .str sectionsHtml),
    ("SEARCH_PLACEHOLDER".toList, placeholderV) ]

/-- The substitution loop of lines 214-215 over raw mapping values:
`str.replace` requires its replacement argument to be a string and raises
`TypeError` otherwise, at the first offending pass. -/
def composePage (content : List Char) : List (List Char × Y) → Except BuildOutcome (List Char)
  | [] => .ok content
  | (key, v) :: rest =>
    match v with
    | .str s => composePage (repl (tokenOf key) s content) rest
    | _ => .error (.raised .typeError)

/-- The whole pipeline of `build.py` below the dependency guards, in source
order: source-file checks (52-62), config validation and theme/font/image
resolution (64-150), stylesheet compilation (153-168), section rendering
(170-195), image inlining (197-199), placeholder substitution and output
(201-223). -/
def build (fs : FS) (cfg : Y) : BuildOutcome :=
  if fs.indexExists = false then .exited exitMissingSourceFile missingIndexMsg
  else if fs.styleExists = false then .exited exitMissingSourceFile missingStyleMsg
  else if fs.configExists = false then .exited exitMissingConfigFile missingConfigMsg
  else
    match asContainerMap cfg with
    | .error o => o
    | .ok cm =>
      match requireKey cm ("look".toList) ("look".toList) with
      | .error o => o
      | .ok lookV =>
        match asContainerMap lookV with
        | .error o => o
        | .ok look =>
          match resolveTheme fs look with
          | .error o => o
          | .ok themeName =>
            match resolveFont fs look with
            | .error o => o
            | .ok fontName =>
              match resolveImage fs look with
              | .error o => o
              | .ok imagePath =>
                match requireKey look ("message".toList) ("look/message".toList) with
                | .error o => o
                | .ok messageV =>
                  match requireKey cm ("page".toList) ("page".toList) with
                  | .error o => o
                  | .ok pageV =>
                    match asContainerMap pageV with
                    | .error o => o
                    | .ok pm =>
                      match requireKey pm ("lang".toList) ("page/lang".toList) with
                      | .error o => o
                      | .ok langV =>
                        match requireKey pm ("title".toList) ("page/title".toList) with
                        | .error o => o
                        | .ok titleV =>
                          match requireKey cm ("search".toList) ("search".toList) with
                          | .error o => o
                          | .ok searchV =>
                            match asContainerMap searchV with
                            | .error o => o
                            | .ok sm =>
                              match requireKey sm ("placeholder".toList) ("search/placeholder".toList) with
                              | .error o => o
                              | .ok placeholderV =>
                                match fs.sassCompile (styleSource fs themeName fontName) with
                                | .error e => .exited exitSassFailure (sassFailureMsg e)
                                | .ok css =>
                                  match requireKey cm ("sections".toList) ("sections".toList) with
                                  | .error o => o
                                  | .ok sectionsV =>
                                    match sectionsV with
                                    | .map secm =>
                                      match sectionsLoop secm 0 with
                                      | .error e => .raised e
                                      | .ok sectionsHtml =>
                                        let dataUrl := image_to_data_url (fs.mimeOf imagePath) (fs.imageBytes imagePath)
                                        match composePage fs.indexContent
                                            (replacementValues langV css titleV dataUrl messageV sectionsHtml placeholderV) with
                                        | .error o => o
                                        | .ok content =>
                                          .finished (!fs.distDirExists) [(distIndexPath, content)]
                                    | _ =>
                                      configErrorOutcome
                                        "Key \"sections\" exists, but is not the right type (should be a dictionary).".toList

/-! ## The replacement map over already-computed string values -/

/-- The seven computed replacement values, as strings. -/
structure RepVals where
  lang : List Char
  styles : List Char
  title : List Char
  image : List Char
  message : List Char
  sections : List Char
  searchPlaceholder : List Char

/-- The seven replacement keys in the dict insertion order of
lines 201-209. -/
def replacementKeys : List (List Char) :=
  [ "LANG".toList, "STYLES".toList, "TITLE".toList, "IMAGE".toList,
    "MESSAGE".toList, "SECTIONS".toList, "SEARCH_PLACEHOLDER".toList ]

/-- The seven placeholder tokens `BUILDER:<key>`. -/
def tokensList : List (List Char) :=
  replacementKeys.map tokenOf

/-- The replacement map with string values, in insertion order. -/
def replacementMap (rv : RepVals) : List (List Char × List Char) :=
  [ ("LANG".toList, rv.lang),
    ("STYLES".toList, rv.styles),
    ("TITLE".toList, rv.title),
    ("IMAGE".toList, rv.image),
    ("MESSAGE".toList, rv.message),
    ("SECTIONS".toList, rv.sections),
    ("SEARCH_PLACEHOLDER".toList, rv.searchPlaceholder) ]

/-! ## Concrete instances used to exercise the substitution loop -/

/-- A template consisting of the `MESSAGE` placeholder token alone. -/
def cexTemplate : List Char :=
  "BUILDER:MESSAGE".toList

/-- Replacement values in which the computed `message` value itself contains
the `LANG` placeholder token. -/
def rvCex : RepVals :=
  { lang := "x".toList, styles := [], title := [], image := [],
    message := "BUILDER:LANG".toList, sections := [], searchPlaceholder := [] }

/-- The same replacement mapping as `replacementMap rvCex` but with the
`MESSAGE` entry moved to the front. -/
def cexOrder : List (List Char × List Char) :=
  [ ("MESSAGE".toList, "BUILDER:LANG".toList),
    ("LANG".toList, "x".toList),
    ("STYLES".toList, []),
    ("TITLE".toList, []),
    ("IMAGE".toList, []),
    ("SECTIONS".toList, []),
    ("SEARCH_PLACEHOLDER".toList, []) ]

/-- Replacement values that cannot interact with any placeholder token. -/
def rvWitness : RepVals :=
  { lang := "x".toList, styles := "x".toList, title := "x".toList,
    image := "x".toList, message := "x".toList, sections := "x".toList,
    searchPlaceholder := "x".toList }

/-- `replacementMap rvWitness` in reverse order. -/
def witOrder : List (List Char × List Char) :=
  [ ("SEARCH_PLACEHOLDER".toList, "x".toList),
    ("SECTIONS".toList, "x".toList),
    ("MESSAGE".toList, "x".toList),
    ("IMAGE".toList, "x".toList),
    ("TITLE".toList, "x".toList),
    ("STYLES".toList, "x".toList),
    ("LANG".toList, "x".toList) ]

/-! ## Concrete fixtures used as witnesses -/

/-- A filesystem oracle on which every check passes: all files exist, the
image is an empty PNG, and stylesheet compilation succeeds. -/
def fsAll : FS :=
  { indexExists := true
    styleExists := true
    configExists := true
    themeDirExists := fun _ => true
    themeFileExists := fun _ => true
    fontDirExists := fun _ => true
    fontFileExists := fun _ => true
    imageExists := fun _ => true
    themeContent := fun _ => "T".toList
    fontContent := fun _ => "F".toList
    styleContent := "S".toList
    indexContent := "<title>BUILDER:TITLE</title><h1>BUILDER:MESSAGE</h1>BUILDER:SECTIONS".toList
    imageBytes := fun _ => []
    mimeOf := fun _ => some ("image/png".toList)
    sassCompile := fun _ => Except.ok ("c".toList)
    distDirExists := false }

/-- `fsAll`, but stylesheet compilation fails. -/
def fsSassErr : FS :=
  { fsAll with sassCompile := fun _ => Except.error ("boom".toList) }

/-- A fully well-formed `look` section. -/
def lookFull : List (List Char × Y) :=
  [ ("theme".toList, .str ("t".toList)), ("font".toList, .str ("f".toList)),
    ("image".toList, .str ("i".toList)), ("message".toList, .str ("hi".toList)) ]

/-- A `look` section missing only the `font` key. -/
def lookNoFont : List (List Char × Y) :=
  [ ("theme".toList, .str ("t".toList)),
    ("image".toList, .str ("i".toList)), ("message".toList, .str ("hi".toList)) ]

/-- A well-formed `page` section. -/
def pmFull : List (List Char × Y) :=
  [ ("lang".toList, .str ("en".toList)), ("title".toList, .str ("ti".toList)) ]

/-- A well-formed `search` section. -/
def smFull : List (List Char × Y) :=
  [ ("placeholder".toList, .str ("go".toList)) ]

/-- Link data with both `icon` and `url`. -/
def dmFull : List (List Char × Y) :=
  [ ("icon".toList, .str ("ic".toList)), ("url".toList, .str ("u".toList)) ]

/-- Link data missing `url`. -/
def dmNoUrl : List (List Char × Y) :=
  [ ("icon".toList, .str ("ic".toList)) ]

/-- One section with one well-formed link. -/
def secsFull : List (List Char × Y) :=
  [ ("A".toList, .map [ ("x".toList, .map dmFull) ]) ]

/-- One section with one link missing `url`. -/
def secsNoUrl : List (List Char × Y) :=
  [ ("A".toList, .map [ ("x".toList, .map dmNoUrl) ]) ]

/-- The entry list of a fully well-formed configuration. -/
def cmFull : List (List Char × Y) :=
  [ ("look".toList, .map lookFull), ("page".toList, .map pmFull),
    ("search".toList, .map smFull), ("sections".toList, .map secsFull) ]

/-- Like `cmFull` but `look` lacks the `font` key. -/
def cmNoFont : List (List Char × Y) :=
  [ ("look".toList, .map lookNoFont), ("page".toList, .map pmFull),
    ("search".toList, .map smFull), ("sections".toList, .map secsFull) ]

/-- Like `cmFull` but a link lacks its `url` entry. -/
def cmNoUrl : List (List Char × Y) :=
  [ ("look".toList, .map lookFull), ("page".toList, .map pmFull),
    ("search".toList, .map smFull), ("sections".toList, .map secsNoUrl) ]

/-- A `look` section whose present values have nonsensical types. -/
def lookOdd : List (List Char × Y) :=
  [ ("theme".toList, .int 5), ("font".toList, .null),
    ("image".toList, .map []), ("message".toList, .null) ]

/-- A configuration with every required key-path present but value types
scrambled (and `sections` still a mapping). -/
def cmOdd : List (List Char × Y) :=
  [ ("look".toList, .map lookOdd),
    ("page".toList, .map [ ("lang".toList, .int 1), ("title".toList, .null) ]),
    ("search".toList, .map [ ("placeholder".toList, .int 2) ]),
    ("sections".toList, .map []) ]

/-- Like `cmFull` but the present `sections` value is a string, not a
mapping. -/
def cmSectionsStr : List (List Char × Y) :=
  [ ("look".toList, .map lookFull), ("page".toList, .map pmFull),
    ("search".toList, .map smFull), ("sections".toList, .str ("oops".toList)) ]

/-- The sections HTML rendered from `secsFull`. -/
def shtmlC6 : List Char :=
  sectionOpen ("A".toList) ++
    "\t\t<li data-icon=\"ic\"><a href=\"u\">x</a></li>\n".toList ++
    sectionClose ++ sepBlock

/-- The PNG file signature, the first bytes of every PNG file. -/
def png1x1Bytes : List Nat :=
  [137, 80, 78, 71, 13, 10, 26, 10]

/-- The page produced by a full run over `fsAll` with `cmFull`. -/
def pageContentC6 : List Char :=
  applyReplacements fsAll.indexContent (replacementMap
    { lang := "en".toList, styles := "c".toList, title := "ti".toList,
      image := image_to_data_url (fsAll.mimeOf ("i".toList)) (fsAll.imageBytes ("i".toList)),
      message := "hi".toList, sections := shtmlC6, searchPlaceholder := "go".toList })

/-- Like `lookFull` but the welcome message itself contains the `LANG`
placeholder token. -/
def lookTok : List (List Char × Y) :=
  [ ("theme".toList, .str ("t".toList)), ("font".toList, .str ("f".toList)),
    ("image".toList, .str ("i".toList)),
    ("message".toList, .str ("BUILDER:LANG".toList)) ]

/-- Like `cmFull` but with `lookTok`. -/
def cmTok : List (List Char × Y) :=
  [ ("look".toList, .map lookTok), ("page".toList, .map pmFull),
    ("search".toList, .map smFull), ("sections".toList, .map secsFull) ]

/-- The page produced by a full run over `fsAll` with `cmTok`. -/
def pageContentTok : List Char :=
  applyReplacements fsAll.indexContent (replacementMap
    { lang := "en".toList, styles := "c".toList, title := "ti".toList,
      image := image_to_data_url (fsAll.mimeOf ("i".toList)) (fsAll.imageBytes ("i".toList)),
      message := "BUILDER:LANG".toList, sections := shtmlC6,
      searchPlaceholder := "go".toList })

/-! ## Theory of `repl` -/

theorem replF_fuel (p v : List Char) :
    ∀ (n m : Nat) (t : List Char), t.length ≤ n → t.length ≤ m →
      replF p v n t = replF p v m t := by
  intro n
  induction n with
  | zero =>
    intro m t hn _
    have ht : t = [] := List.eq_nil_of_length_eq_zero (Nat.le_zero.mp hn)
    subst ht
    cases m <;> rfl
  | succ n ih =>
    intro m t hn hm
    cases t with
    | nil => cases m <;> rfl
    | cons c cs =>
      cases m with
      | zero => simp at hm
      | succ m' =>
        simp only [replF]
        by_cases h : List.isPrefixOf p (c :: cs) = true
        · rw [if_pos h, if_pos h]
          have hlen : (List.drop (p.length - 1) cs).length ≤ cs.length := by
            rw [List.length_drop]; omega
          have hn' : cs.length ≤ n := Nat.le_of_succ_le_succ hn
          have hm' : cs.length ≤ m' := Nat.le_of_succ_le_succ hm
          rw [ih m' (List.drop (p.length - 1) cs) (le_trans hlen hn') (le_trans hlen hm')]
        · rw [if_neg h, if_neg h]
          rw [ih m' cs (Nat.le_of_succ_le_succ hn) (Nat.le_of_succ_le_succ hm)]

theorem repl_nil (p v : List Char) : repl p v [] = [] := rfl

theorem repl_cons_pos (p v : List Char) (c : Char) (cs : List Char)
    (h : p <+: c :: cs) :
    repl p v (c :: cs) = v ++ repl p v (List.drop (p.length - 1) cs) := by
  have hb : List.isPrefixOf p (c :: cs) = true := List.isPrefixOf_iff_prefix.mpr h
  show replF p v (c :: cs).length (c :: cs) = _
  simp only [List.length_cons, replF, if_pos hb]
  congr 1
  exact replF_fuel p v cs.length (List.drop (p.length - 1) cs).length _
    (by rw [List.length_drop]; omega) le_rfl

theorem repl_cons_neg (p v : List Char) (c : Char) (cs : List Char)
    (h : ¬ p <+: c :: cs) :
    repl p v (c :: cs) = c :: repl p v cs := by
  have hb : ¬ List.isPrefixOf p (c :: cs) = true := fun hc =>
    h (List.isPrefixOf_iff_prefix.mp hc)
  show replF p v (c :: cs).length (c :: cs) = _
  simp only [List.length_cons, replF, if_neg hb]
  rfl

theorem repl_append_self (p v x : List Char) (hp : p ≠ []) :
    repl p v (p ++ x) = v ++ repl p v x := by
  cases p with
  | nil => exact absurd rfl hp
  | cons a p' =>
    rw [List.cons_append, repl_cons_pos _ _ _ _ (by
      rw [← List.cons_append]; exact List.prefix_append _ _)]
    congr 1
    simp only [List.length_cons, Nat.add_sub_cancel]
    rw [List.drop_left]

theorem occursIn_iff (p v : List Char) : occursIn p v = true ↔ p <:+: v := by
  induction v with
  | nil =>
    simp only [occursIn, List.isEmpty_iff]
    constructor
    · rintro rfl; exact List.infix_rfl
    · intro h; exact List.eq_nil_of_infix_nil h
  | cons c cs ih =>
    simp only [occursIn, Bool.or_eq_true, List.isPrefixOf_iff_prefix, ih,
      List.infix_cons_iff]

theorem getLast?_of_suffix {s l : List Char} (h : s <:+ l) (hs : s ≠ []) :
    l.getLast? = s.getLast? := by
  obtain ⟨u, rfl⟩ := h
  rw [List.getLast?_append]
  cases hl : s.getLast? with
  | none => exact absurd (List.getLast?_eq_none_iff.mp hl) hs
  | some c => rfl

theorem head?_of_prefix {s l : List Char} (h : s <+: l) (hs : s ≠ []) :
    l.head? = s.head? := by
  obtain ⟨u, rfl⟩ := h
  exact List.head?_append_of_ne_nil _ hs

theorem prefix_append_cases {x a b : List Char} (h : x <+: a ++ b) :
    x <+: a ∨ ∃ y, x = a ++ y ∧ y <+: b := by
  obtain ⟨t, ht⟩ := h
  rcases List.append_eq_append_iff.mp ht with ⟨a', ha, _⟩ | ⟨c', hx, hb⟩
  · exact Or.inl ⟨a', ha.symm⟩
  · exact Or.inr ⟨c', hx, ⟨t, hb.symm⟩⟩

theorem infix_append_cases {p a b : List Char} (h : p <:+: a ++ b) :
    p <:+: a ∨ p <:+: b ∨
      ∃ p₁ p₂, p = p₁ ++ p₂ ∧ p₁ ≠ [] ∧ p₂ ≠ [] ∧ p₁ <:+ a ∧ p₂ <+: b := by
  obtain ⟨s, t, hst⟩ := h
  rcases List.append_eq_append_iff.mp hst with ⟨a', ha, _⟩ | ⟨c', hsp, hb⟩
  · exact Or.inl ⟨s, a', ha.symm⟩
  · rcases List.append_eq_append_iff.mp hsp with ⟨a₂, ha2, hp2⟩ | ⟨c₂, _, hc2⟩
    · rcases eq_or_ne a₂ [] with rfl | hane
      · rw [List.nil_append] at hp2
        refine Or.inr (Or.inl ?_)
        rw [hp2]
        exact List.IsPrefix.isInfix ⟨t, hb.symm⟩
      · rcases eq_or_ne c' [] with rfl | hcne
        · rw [List.append_nil] at hp2
          refine Or.inl ?_
          rw [hp2]
          exact List.IsSuffix.isInfix ⟨s, ha2.symm⟩
        · exact Or.inr (Or.inr ⟨a₂, c', hp2, hane, hcne, ⟨s, ha2.symm⟩, ⟨t, hb.symm⟩⟩)
    · refine Or.inr (Or.inl ⟨c₂, t, ?_⟩)
      rw [hb, hc2]

theorem repl_pass_over (q vq : List Char) :
    ∀ (a : List Char),
      (∀ k, k < a.length → ∀ s, ¬ q <+: List.drop k a ++ s) →
      ∀ s, repl q vq (a ++ s) = a ++ repl q vq s := by
  intro a
  induction a with
  | nil => intro _ s; rfl
  | cons c a' ih =>
    intro h s
    rw [List.cons_append, repl_cons_neg _ _ _ _ (by
      have h0 := h 0 (by simp) s
      simpa using h0)]
    rw [ih (fun k hk s' => by
      have hk1 := h (k + 1) (by simpa using Nat.succ_lt_succ hk) s'
      simpa using hk1) s]
    rfl

theorem pass_over_cond_value (q v : List Char) (hq : q ≠ [])
    (hocc : ¬ q <:+: v) (hlast : ∀ c, v.getLast? = some c → c ∉ q) :
    ∀ k, k < v.length → ∀ s, ¬ q <+: List.drop k v ++ s := by
  intro k hk s hpre
  rcases prefix_append_cases hpre with h1 | ⟨y, hq_eq, _⟩
  · exact hocc (List.IsInfix.trans ( List.IsPrefix.isInfix h1)
      ( List.IsSuffix.isInfix (List.drop_suffix k v)))
  · have hds : List.drop k v ≠ [] := by
      intro hnil
      have := List.length_drop k v
      rw [hnil] at this
      simp at this
      omega
    cases hl : (List.drop k v).getLast? with
    | none => exact hds (List.getLast?_eq_none_iff.mp hl)
    | some d =>
      have hdv : v.getLast? = some d := by
        rw [getLast?_of_suffix (List.drop_suffix k v) hds, hl]
      have hdq : d ∈ q := by
        rw [hq_eq]
        exact List.mem_append_left _ (List.mem_of_mem_getLast? (by rw [hl]; rfl))
      exact hlast d hdv hdq

theorem pass_over_cond_token (q p : List Char)
    (hqp : ¬ q <+: p) (hpq : ¬ p <+: q)
    (hheads : ∀ k, k < p.length → 0 < k → q.head? ≠ (List.drop k p).head?) :
    ∀ k, k < p.length → ∀ s, ¬ q <+: List.drop k p ++ s := by
  intro k hk s hpre
  rcases Nat.eq_zero_or_pos k with rfl | hpos
  · simp only [List.drop_zero] at hpre
    rcases prefix_append_cases hpre with h1 | ⟨y, hq_eq, _⟩
    · exact hqp h1
    · exact hpq ⟨y, hq_eq.symm⟩
  · have hqne : q ≠ [] := fun h => hqp (h ▸ List.nil_prefix)
    have hds : List.drop k p ≠ [] := by
      intro hnil
      have := List.length_drop k p
      rw [hnil] at this
      simp at this
      omega
    have hh : (List.drop k p ++ s).head? = q.head? := head?_of_prefix hpre hqne
    rw [List.head?_append_of_ne_nil _ hds] at hh
    exact hheads k hk hpos hh.symm

theorem prefix_of_repl (p : List Char) (vh : Char) (v' : List Char) :
    ∀ (n : Nat) (t x : List Char), t.length ≤ n → vh ∉ x →
      x <+: repl p (vh :: v') t → x <+: t := by
  intro n
  induction n with
  | zero =>
    intro t x hn _ hx
    have ht : t = [] := List.eq_nil_of_length_eq_zero (Nat.le_zero.mp hn)
    subst ht
    rwa [repl_nil] at hx
  | succ n ih =>
    intro t x hn hvx hx
    cases t with
    | nil => rwa [repl_nil] at hx
    | cons c cs =>
      by_cases hpre : p <+: c :: cs
      · rw [repl_cons_pos _ _ _ _ hpre] at hx
        cases x with
        | nil => exact List.nil_prefix
        | cons xc x' =>
          exfalso
          have hh := head?_of_prefix hx (by simp)
          rw [List.cons_append] at hh
          simp only [List.head?_cons, Option.some.injEq] at hh
          exact hvx (hh ▸ List.mem_cons_self xc x')
      · rw [repl_cons_neg _ _ _ _ hpre] at hx
        cases x with
        | nil => exact List.nil_prefix
        | cons xc x' =>
          rw [List.cons_prefix_cons] at hx
          obtain ⟨rfl, hx'⟩ := hx
          exact List.cons_prefix_cons.mpr ⟨rfl,
            ih cs x' (Nat.le_of_succ_le_succ hn)
              (fun hm => hvx (List.mem_cons_of_mem _ hm)) hx'⟩

theorem not_infix_repl_self (p : List Char) (hp : p ≠ []) (vh : Char) (v' : List Char)
    (hhead : vh ∉ p)
    (hlast : ∀ c, (vh :: v').getLast? = some c → c ∉ p)
    (hocc : ¬ p <:+: (vh :: v')) :
    ∀ (n : Nat) (t : List Char), t.length ≤ n → ¬ p <:+: repl p (vh :: v') t := by
  intro n
  induction n with
  | zero =>
    intro t hn hinf
    have ht : t = [] := List.eq_nil_of_length_eq_zero (Nat.le_zero.mp hn)
    subst ht
    rw [repl_nil] at hinf
    exact hp (List.eq_nil_of_infix_nil hinf)
  | succ n ih =>
    intro t hn hinf
    cases t with
    | nil =>
      rw [repl_nil] at hinf
      exact hp (List.eq_nil_of_infix_nil hinf)
    | cons c cs =>
      by_cases hpre : p <+: c :: cs
      · rw [repl_cons_pos _ _ _ _ hpre] at hinf
        rcases infix_append_cases hinf with h1 | h2 | ⟨p₁, p₂, hpe, hp1, _, hsuf, _⟩
        · exact hocc h1
        · refine ih (List.drop (p.length - 1) cs) ?_ h2
          rw [List.length_drop]
          simp only [List.length_cons] at hn
          omega
        · cases hl : p₁.getLast? with
          | none => exact hp1 (List.getLast?_eq_none_iff.mp hl)
          | some d =>
            have hdv : (vh :: v').getLast? = some d := by
              rw [getLast?_of_suffix hsuf hp1, hl]
            have hdp : d ∈ p := by
              rw [hpe]
              exact List.mem_append_left _ (List.mem_of_mem_getLast? (by rw [hl]; rfl))
            exact hlast d hdv hdp
      · rw [repl_cons_neg _ _ _ _ hpre] at hinf
        rcases List.infix_cons_iff.mp hinf with h1 | h2
        · cases p with
          | nil => exact hp rfl
          | cons pc p' =>
            rw [List.cons_prefix_cons] at h1
            obtain ⟨rfl, hp'⟩ := h1
            have hcs : p' <+: cs := prefix_of_repl _ _ _ cs.length cs p' le_rfl
              (fun hm => hhead (List.mem_cons_of_mem _ hm)) hp'
            exact hpre (List.cons_prefix_cons.mpr ⟨rfl, hcs⟩)
        · exact ih cs (by simp only [List.length_cons] at hn; omega) h2

theorem not_infix_repl_other (p q : List Char) (vh : Char) (v' : List Char)
    (hhead : vh ∉ p)
    (hlast : ∀ c, (vh :: v').getLast? = some c → c ∉ p)
    (hocc : ¬ p <:+: (vh :: v')) :
    ∀ (n : Nat) (t : List Char), t.length ≤ n → ¬ p <:+: t →
      ¬ p <:+: repl q (vh :: v') t := by
  intro n
  induction n with
  | zero =>
    intro t hn hnot hinf
    have ht : t = [] := List.eq_nil_of_length_eq_zero (Nat.le_zero.mp hn)
    subst ht
    rw [repl_nil] at hinf
    exact hnot hinf
  | succ n ih =>
    intro t hn hnot hinf
    cases t with
    | nil =>
      rw [repl_nil] at hinf
      exact hnot hinf
    | cons c cs =>
      by_cases hpre : q <+: c :: cs
      · rw [repl_cons_pos _ _ _ _ hpre] at hinf
        rcases infix_append_cases hinf with h1 | h2 | ⟨p₁, p₂, hpe, hp1, _, hsuf, _⟩
        · exact hocc h1
        · refine ih (List.drop (q.length - 1) cs) ?_ ?_ h2
          · rw [List.length_drop]
            simp only [List.length_cons] at hn
            omega
          · intro hc
            exact hnot (List.IsInfix.trans hc (List.IsInfix.trans
              ( List.IsSuffix.isInfix (List.drop_suffix _ cs))
              ( List.IsSuffix.isInfix (List.suffix_cons c cs))))
        · cases hl : p₁.getLast? with
          | none => exact hp1 (List.getLast?_eq_none_iff.mp hl)
          | some d =>
            have hdv : (vh :: v').getLast? = some d := by
              rw [getLast?_of_suffix hsuf hp1, hl]
            have hdp : d ∈ p := by
              rw [hpe]
              exact List.mem_append_left _ (List.mem_of_mem_getLast? (by rw [hl]; rfl))
            exact hlast d hdv hdp
      · rw [repl_cons_neg _ _ _ _ hpre] at hinf
        rcases List.infix_cons_iff.mp hinf with h1 | h2
        · cases p with
          | nil => exact hnot List.nil_infix
          | cons pc p' =>
            rw [List.cons_prefix_cons] at h1
            obtain ⟨rfl, hp'⟩ := h1
            have hcs : p' <+: cs := prefix_of_repl _ _ _ cs.length cs p' le_rfl
              (fun hm => hhead (List.mem_cons_of_mem _ hm)) hp'
            exact hnot ( List.IsPrefix.isInfix (List.cons_prefix_cons.mpr ⟨rfl, hcs⟩))
        · exact ih cs (by simp only [List.length_cons] at hn; omega)
            (fun hc => hnot (List.infix_cons_iff.mpr (Or.inr hc))) h2

theorem blocksTokB_ne_nil {v p : List Char} (h : blocksTokB v p = true) : v ≠ [] := by
  intro hv
  subst hv
  simp [blocksTokB] at h

theorem blocksTokB_head {v p : List Char} (h : blocksTokB v p = true) :
    ∀ c, v.head? = some c → c ∉ p := by
  intro c hc hmem
  rw [blocksTokB, hc] at h
  simp only [Bool.and_eq_true, Bool.not_eq_true'] at h
  rcases h with ⟨⟨⟨_, h2⟩, _⟩, _⟩
  simp at h2
  exact h2 hmem

theorem blocksTokB_getLast {v p : List Char} (h : blocksTokB v p = true) :
    ∀ c, v.getLast? = some c → c ∉ p := by
  intro c hc hmem
  rw [blocksTokB, hc] at h
  simp only [Bool.and_eq_true, Bool.not_eq_true'] at h
  rcases h with ⟨⟨_, h3⟩, _⟩
  simp at h3
  exact h3 hmem

theorem blocksTokB_no_occ {v p : List Char} (h : blocksTokB v p = true) :
    ¬ p <:+: v := by
  intro hmem
  rw [blocksTokB] at h
  simp only [Bool.and_eq_true, Bool.not_eq_true'] at h
  rcases h with ⟨_, h4⟩
  rw [← occursIn_iff p v] at hmem
  rw [hmem] at h4
  simp at h4

theorem repl_pass_value (q vq v : List Char) (hq : q ≠ [])
    (hb : blocksTokB v q = true) :
    ∀ s, repl q vq (v ++ s) = v ++ repl q vq s :=
  repl_pass_over q vq v
    (pass_over_cond_value q v hq (blocksTokB_no_occ hb) (blocksTokB_getLast hb))

theorem repl_pass_token (q vq p : List Char)
    (hqp : ¬ q <+: p) (hpq : ¬ p <+: q)
    (hheads : ∀ k, k < p.length → 0 < k → q.head? ≠ (List.drop k p).head?) :
    ∀ s, repl q vq (p ++ s) = p ++ repl q vq s :=
  repl_pass_over q vq p (pass_over_cond_token q p hqp hpq hheads)

theorem repl_comm (p q vp vq : List Char)
    (hpq : ¬ p <+: q) (hqp : ¬ q <+: p)
    (hinP : ∀ k, k < p.length → 0 < k → q.head? ≠ (List.drop k p).head?)
    (hinQ : ∀ k, k < q.length → 0 < k → p.head? ≠ (List.drop k q).head?)
    (hbp : blocksTokB vp q = true) (hbq : blocksTokB vq p = true) :
    ∀ t, repl q vq (repl p vp t) = repl p vp (repl q vq t) := by
  have hp : p ≠ [] := fun h => hpq (h ▸ List.nil_prefix)
  have hq : q ≠ [] := fun h => hqp (h ▸ List.nil_prefix)
  have hple : 1 ≤ p.length := by
    cases p with
    | nil => exact absurd rfl hp
    | cons _ _ => simp
  have hqle : 1 ≤ q.length := by
    cases q with
    | nil => exact absurd rfl hq
    | cons _ _ => simp
  obtain ⟨vph, vp', rfl⟩ : ∃ a l, vp = a :: l := by
    cases vp with
    | nil => exact absurd rfl (blocksTokB_ne_nil hbp)
    | cons a l => exact ⟨a, l, rfl⟩
  obtain ⟨vqh, vq', rfl⟩ : ∃ a l, vq = a :: l := by
    cases vq with
    | nil => exact absurd rfl (blocksTokB_ne_nil hbq)
    | cons a l => exact ⟨a, l, rfl⟩
  have key : ∀ (n : Nat) (t : List Char), t.length ≤ n →
      repl q (vqh :: vq') (repl p (vph :: vp') t) =
        repl p (vph :: vp') (repl q (vqh :: vq') t) := by
    intro n
    induction n with
    | zero =>
      intro t hn
      have ht : t = [] := List.eq_nil_of_length_eq_zero (Nat.le_zero.mp hn)
      subst ht
      rfl
    | succ n ih =>
      intro t hn
      cases t with
      | nil => rfl
      | cons c cs =>
        by_cases hpt : p <+: c :: cs
        · by_cases hqt : q <+: c :: cs
          · exfalso
            rcases Nat.le_total p.length q.length with hle | hle
            · exact hpq (List.prefix_of_prefix_length_le hpt hqt hle)
            · exact hqp (List.prefix_of_prefix_length_le hqt hpt hle)
          · obtain ⟨s, hs⟩ := hpt
            have hslen : s.length ≤ n := by
              have hl := congrArg List.length hs
              simp only [List.length_append, List.length_cons] at hl
              simp only [List.length_cons] at hn
              omega
            rw [← hs]
            rw [repl_append_self p (vph :: vp') s hp]
            rw [repl_pass_value q (vqh :: vq') (vph :: vp') hq hbp (repl p (vph :: vp') s)]
            rw [repl_pass_token q (vqh :: vq') p hqp hpq hinP s]
            rw [repl_append_self p (vph :: vp') (repl q (vqh :: vq') s) hp]
            rw [ih s hslen]
        · by_cases hqt : q <+: c :: cs
          · obtain ⟨s, hs⟩ := hqt
            have hslen : s.length ≤ n := by
              have hl := congrArg List.length hs
              simp only [List.length_append, List.length_cons] at hl
              simp only [List.length_cons] at hn
              omega
            rw [← hs]
            rw [repl_pass_token p (vph :: vp') q hpq hqp hinQ s]
            rw [repl_append_self q (vqh :: vq') (repl p (vph :: vp') s) hq]
            rw [repl_append_self q (vqh :: vq') s hq]
            rw [repl_pass_value p (vph :: vp') (vqh :: vq') hp hbq (repl q (vqh :: vq') s)]
            rw [ih s hslen]
          · have hqc : ¬ q <+: c :: repl p (vph :: vp') cs := by
              intro hcon
              cases q with
              | nil => exact hq rfl
              | cons qc q' =>
                rw [List.cons_prefix_cons] at hcon
                obtain ⟨rfl, hq'⟩ := hcon
                have hvph : vph ∉ q' := fun hm =>
                  (blocksTokB_head hbp vph rfl) (List.mem_cons_of_mem _ hm)
                exact hqt (List.cons_prefix_cons.mpr
                  ⟨rfl, prefix_of_repl p vph vp' cs.length cs q' le_rfl hvph hq'⟩)
            have hpc : ¬ p <+: c :: repl q (vqh :: vq') cs := by
              intro hcon
              cases p with
              | nil => exact hp rfl
              | cons pc p' =>
                rw [List.cons_prefix_cons] at hcon
                obtain ⟨rfl, hp'⟩ := hcon
                have hvqh : vqh ∉ p' := fun hm =>
                  (blocksTokB_head hbq vqh rfl) (List.mem_cons_of_mem _ hm)
                exact hpt (List.cons_prefix_cons.mpr
                  ⟨rfl, prefix_of_repl q vqh vq' cs.length cs p' le_rfl hvqh hp'⟩)
            rw [repl_cons_neg p (vph :: vp') c cs hpt]
            rw [repl_cons_neg q (vqh :: vq') c cs hqt]
            rw [repl_cons_neg q (vqh :: vq') c (repl p (vph :: vp') cs) hqc]
            rw [repl_cons_neg p (vph :: vp') c (repl q (vqh :: vq') cs) hpc]
            rw [ih cs (by simp only [List.length_cons] at hn; omega)]
  intro t
  exact key t.length t le_rfl

theorem applyReplacements_cons (t : List Char) (kv : List Char × List Char)
    (L : List (List Char × List Char)) :
    applyReplacements t (kv :: L) = applyReplacements (repl (tokenOf kv.1) kv.2 t) L := rfl

theorem foldl_repl_not_occ (p : List Char) :
    ∀ (L : List (List Char × List Char)) (t : List Char),
      (∀ kv ∈ L, blocksTokB kv.2 p = true) → ¬ p <:+: t →
      ¬ p <:+: applyReplacements t L := by
  intro L
  induction L with
  | nil => intro t _ hnot; exact hnot
  | cons kv L' ih =>
    intro t hb hnot
    rw [applyReplacements_cons]
    have hbkv : blocksTokB kv.2 p = true := hb kv (List.mem_cons_self kv L')
    obtain ⟨vh, v', hv⟩ : ∃ a l, kv.2 = a :: l := by
      cases hvv : kv.2 with
      | nil => exact absurd hvv (blocksTokB_ne_nil hbkv)
      | cons a l => exact ⟨a, l, rfl⟩
    rw [hv] at hbkv
    refine ih _ (fun kv' h' => hb kv' (List.mem_cons_of_mem _ h')) ?_
    rw [hv]
    exact not_infix_repl_other p (tokenOf kv.1) vh v'
      (blocksTokB_head hbkv vh rfl)
      (blocksTokB_getLast hbkv)
      (blocksTokB_no_occ hbkv)
      t.length t le_rfl hnot

theorem applyReplacements_no_tok :
    ∀ (L : List (List Char × List Char)) (t : List Char),
      (∀ kv ∈ L, ∀ kv' ∈ L, blocksTokB kv.2 (tokenOf kv'.1) = true) →
      (∀ kv ∈ L, tokenOf kv.1 ≠ []) →
      ∀ kv ∈ L, ¬ (tokenOf kv.1) <:+: applyReplacements t L := by
  intro L
  induction L with
  | nil => intro t _ _ kv hkv; exact absurd hkv (List.not_mem_nil kv)
  | cons kv₀ L' ih =>
    intro t hb hne kv hkv
    rw [applyReplacements_cons]
    have hb0 : blocksTokB kv₀.2 (tokenOf kv₀.1) = true :=
      hb kv₀ (List.mem_cons_self _ _) kv₀ (List.mem_cons_self _ _)
    rcases List.mem_cons.mp hkv with rfl | hkv'
    · obtain ⟨vh, v', hv⟩ : ∃ a l, kv.2 = a :: l := by
        cases hvv : kv.2 with
        | nil => exact absurd hvv (blocksTokB_ne_nil hb0)
        | cons a l => exact ⟨a, l, rfl⟩
      rw [hv] at hb0
      refine foldl_repl_not_occ (tokenOf kv.1) L' _
        (fun kv' h' => hb kv' (List.mem_cons_of_mem _ h') kv (List.mem_cons_self _ _)) ?_
      rw [hv]
      exact not_infix_repl_self (tokenOf kv.1) (hne kv (List.mem_cons_self _ _)) vh v'
        (blocksTokB_head hb0 vh rfl)
        (blocksTokB_getLast hb0)
        (blocksTokB_no_occ hb0)
        t.length t le_rfl
    · exact ih _ (fun a ha b hb' => hb a (List.mem_cons_of_mem _ ha) b (List.mem_cons_of_mem _ hb'))
        (fun a ha => hne a (List.mem_cons_of_mem _ ha)) kv hkv'

theorem tokens_indep : ∀ p ∈ tokensList, ∀ q ∈ tokensList, p ≠ q →
    (¬ p <+: q ∧ ∀ k, k < p.length → 0 < k → q.head? ≠ (List.drop k p).head?) := by
  decide

/-- C4 (amended): for every template text and assignment of computed string
values, applying the seven whole-string token substitutions in any order of
the replacement map yields the same final output, provided each computed
value blocks every placeholder token — it is non-empty, neither its first nor
its last character occurs in any token, and no token occurs inside it.
(Without such a restriction the order matters; see the counterexample.) -/
theorem c4_substitution_order_immaterial (t : List Char) (rv : RepVals)
    (m' : List (List Char × List Char))
    (hperm : (replacementMap rv).Perm m')
    (hblocks : ∀ kv ∈ replacementMap rv, ∀ tok ∈ tokensList, blocksTokB kv.2 tok = true) :
    applyReplacements t m' = applyReplacements t (replacementMap rv) := by
  have hbAll : ∀ v ∈ [rv.lang, rv.styles, rv.title, rv.image, rv.message,
      rv.sections, rv.searchPlaceholder], ∀ tok ∈ tokensList, blocksTokB v tok = true := by
    intro v hv tok htok
    simp only [List.mem_cons, List.not_mem_nil, or_false] at hv
    rcases hv with rfl | rfl | rfl | rfl | rfl | rfl | rfl
    · exact hblocks (("LANG".toList, rv.lang)) (by simp [replacementMap]) tok htok
    · exact hblocks (("STYLES".toList, rv.styles)) (by simp [replacementMap]) tok htok
    · exact hblocks (("TITLE".toList, rv.title)) (by simp [replacementMap]) tok htok
    · exact hblocks (("IMAGE".toList, rv.image)) (by simp [replacementMap]) tok htok
    · exact hblocks (("MESSAGE".toList, rv.message)) (by simp [replacementMap]) tok htok
    · exact hblocks (("SECTIONS".toList, rv.sections)) (by simp [replacementMap]) tok htok
    · exact hblocks (("SEARCH_PLACEHOLDER".toList, rv.searchPlaceholder))
        (by simp [replacementMap]) tok htok
  unfold applyReplacements
  refine (List.Perm.foldl_eq' hperm ?_ t).symm
  intro x hx y hy z
  simp only [replacementMap, List.mem_cons, List.not_mem_nil, or_false] at hx hy
  rcases hx with rfl | rfl | rfl | rfl | rfl | rfl | rfl <;>
    rcases hy with rfl | rfl | rfl | rfl | rfl | rfl | rfl <;>
    dsimp only <;>
    first
      | rfl
      | (apply repl_comm <;>
          first
            | decide
            | (apply hbAll <;> first | decide | simp))

/-- C4 (counterexample to the claim as stated): with a computed `message`
value that itself contains the `LANG` placeholder token, substituting in the
map's insertion order and substituting with `MESSAGE` first give different
final texts, so the order of substitution is not immaterial. -/
theorem c4_counterexample :
    (replacementMap rvCex).Perm cexOrder ∧
    applyReplacements cexTemplate cexOrder ≠
      applyReplacements cexTemplate (replacementMap rvCex) := by
  decide

/-- C4 witness: a concrete run of the amended theorem, with all seven values
`"x"` and the substitutions applied in reverse order. -/
theorem c4_witness :
    (replacementMap rvWitness).Perm witOrder ∧
    (∀ kv ∈ replacementMap rvWitness, ∀ tok ∈ tokensList, blocksTokB kv.2 tok = true) ∧
    applyReplacements cexTemplate witOrder =
      applyReplacements cexTemplate (replacementMap rvWitness) :=
  ⟨by decide, by decide,
    c4_substitution_order_immaterial cexTemplate rvWitness witOrder (by decide) (by decide)⟩

/-! ## Section renderer: the odd-position separator rule -/

theorem sectionsLoop_blocks :
    ∀ (secs : List (List Char × Y)) (counter : Nat),
      sectionsLoop secs counter =
        (sectionBlocks secs).map (interleaveSeps (counter + 1)) := by
  intro secs
  induction secs with
  | nil => intro counter; rfl
  | cons hd rest ih =>
    intro counter
    obtain ⟨name, links⟩ := hd
    cases links with
    | map lm =>
      cases hrl : renderLinks lm with
      | error e =>
        simp [sectionsLoop, sectionBlocks, renderSectionBlock, hrl, Except.map]
      | ok items =>
        cases hrest : sectionBlocks rest with
        | error e =>
          simp [sectionsLoop, sectionBlocks, renderSectionBlock, hrl, hrest, ih, Except.map]
        | ok blocks =>
          simp [sectionsLoop, sectionBlocks, renderSectionBlock, hrl, hrest, ih,
            interleaveSeps, List.append_assoc, Except.map]
    | str s => simp [sectionsLoop, sectionBlocks, renderSectionBlock, Except.map]
    | int n => simp [sectionsLoop, sectionBlocks, renderSectionBlock, Except.map]
    | null => simp [sectionsLoop, sectionBlocks, renderSectionBlock, Except.map]

/-- C3: the rendered sections HTML is exactly the section blocks in input
order with one extra separator block appended immediately after each block
whose 1-based position is odd (`interleaveSeps` starting at position 1), and
no extra separator after even-positioned blocks. -/
theorem c3_odd_position_separator (secs : List (List Char × Y)) :
    sectionsLoop secs 0 =
      (sectionBlocks secs).map (interleaveSeps 1) :=
  sectionsLoop_blocks secs 0

/-! ## Section renderer: missing link fields raise `KeyError` -/

theorem renderLinks_ok_of_no_missing :
    ∀ (lm : List (List Char × Y)), linksWellShaped lm = true →
      linkFieldMissing lm = false → ∃ h, renderLinks lm = .ok h := by
  intro lm
  induction lm with
  | nil => intro _ _; exact ⟨[], rfl⟩
  | cons l rest ih =>
    intro hws hmiss
    obtain ⟨linkName, linkData⟩ := l
    simp only [linksWellShaped, List.all_cons, Bool.and_eq_true] at hws
    simp only [linkFieldMissing, List.any_cons, Bool.or_eq_false_iff] at hmiss
    obtain ⟨hws1, hws2⟩ := hws
    obtain ⟨hmiss1, hmiss2⟩ := hmiss
    cases linkData with
    | map dm =>
      simp only [Bool.not_eq_false', Bool.and_eq_true, Option.isSome_iff_exists] at hmiss1
      obtain ⟨⟨icon, hicon⟩, ⟨url, hurl⟩⟩ := hmiss1
      obtain ⟨h, hh⟩ := ih hws2 hmiss2
      cases hr : renderLinks ((linkName, Y.map dm) :: rest) with
      | ok h2 => exact ⟨h2, rfl⟩
      | error e =>
        simp only [renderLinks, hicon, hurl, hh] at hr
        exact Except.noConfusion hr
    | str s => simp at hws1
    | int n => simp at hws1
    | null => simp at hws1

theorem renderLinks_keyError :
    ∀ (lm : List (List Char × Y)), linksWellShaped lm = true →
      linkFieldMissing lm = true →
      ∃ k, renderLinks lm = .error (.keyError k) := by
  intro lm
  induction lm with
  | nil => intro _ hmiss; exact absurd hmiss (by decide)
  | cons l rest ih =>
    intro hws hmiss
    obtain ⟨linkName, linkData⟩ := l
    simp only [linksWellShaped, List.all_cons, Bool.and_eq_true] at hws
    obtain ⟨hws1, hws2⟩ := hws
    cases linkData with
    | map dm =>
      cases hicon : lookupY dm ("icon".toList) with
      | none => exact ⟨"icon".toList, by simp only [renderLinks, hicon]⟩
      | some icon =>
        cases hurl : lookupY dm ("url".toList) with
        | none => exact ⟨"url".toList, by simp only [renderLinks, hicon, hurl]⟩
        | some url =>
          have hmiss' : linkFieldMissing rest = true := by
            simp only [linkFieldMissing, List.any_cons, Bool.or_eq_true] at hmiss
            rcases hmiss with h1 | h2
            · rw [hicon, hurl] at h1
              simp at h1
            · exact h2
          obtain ⟨k, hk⟩ := ih hws2 hmiss'
          refine ⟨k, ?_⟩
          simp only [renderLinks, hicon, hurl, hk]
    | str s => simp at hws1
    | int n => simp at hws1
    | null => simp at hws1

theorem sectionsLoop_keyError :
    ∀ (secs : List (List Char × Y)) (counter : Nat),
      sectionsWellShaped secs = true → someLinkFieldMissing secs = true →
      ∃ k, sectionsLoop secs counter = .error (.keyError k) := by
  intro secs
  induction secs with
  | nil => intro _ _ hmiss; exact absurd hmiss (by decide)
  | cons hd rest ih =>
    intro counter hws hmiss
    obtain ⟨name, links⟩ := hd
    simp only [sectionsWellShaped, List.all_cons, Bool.and_eq_true] at hws
    obtain ⟨hws1, hws2⟩ := hws
    cases links with
    | map lm =>
      cases hlf : linkFieldMissing lm with
      | true =>
        obtain ⟨k, hk⟩ := renderLinks_keyError lm hws1 hlf
        exact ⟨k, by simp only [sectionsLoop, hk]⟩
      | false =>
        have hmiss' : someLinkFieldMissing rest = true := by
          simp only [someLinkFieldMissing, List.any_cons, Bool.or_eq_true] at hmiss
          rcases hmiss with h1 | h2
          · rw [hlf] at h1
            simp at h1
          · exact h2
        obtain ⟨h, hh⟩ := renderLinks_ok_of_no_missing lm hws1 hlf
        obtain ⟨k, hk⟩ := ih (counter + 1) hws2 hmiss'
        exact ⟨k, by simp only [sectionsLoop, hh, hk]⟩
    | str s => simp at hws1
    | int n => simp at hws1
    | null => simp at hws1

/-! ## Build-stage lemmas -/

theorem requireKey_found {m : List (List Char × Y)}
    {key path : List Char} {w : Y} (h : lookupY m key = some w) :
    requireKey m key path = .ok w := by
  simp only [requireKey, h]

theorem resolveTheme_ok {fs : FS} {look : List (List Char × Y)} {n : List Char}
    (h : lookupY look ("theme".toList) = some (Y.str n))
    (hd : fs.themeDirExists n = true) (hf : fs.themeFileExists n = true) :
    resolveTheme fs look = .ok n := by
  unfold resolveTheme requireKey
  rw [h]
  simp [asPathName, hd, hf]

theorem resolveFont_ok {fs : FS} {look : List (List Char × Y)} {tv : Y} {n : List Char}
    (ht : lookupY look ("theme".toList) = some tv)
    (h : lookupY look ("font".toList) = some (Y.str n))
    (hd : fs.fontDirExists n = true) (hf : fs.fontFileExists n = true) :
    resolveFont fs look = .ok n := by
  unfold resolveFont
  rw [ht, h]
  simp [asPathName, hd, hf]

theorem resolveImage_ok {fs : FS} {look : List (List Char × Y)} {n : List Char}
    (h : lookupY look ("image".toList) = some (Y.str n))
    (he : fs.imageExists n = true) :
    resolveImage fs look = .ok n := by
  unfold resolveImage requireKey
  rw [h]
  simp [asPathName, he]

theorem resolveTheme_error_code {fs : FS} {look : List (List Char × Y)} {o : BuildOutcome}
    (hth : (lookupY look ("theme".toList)).isSome = true)
    (he : resolveTheme fs look = .error o) :
    o.exitCode ≠ some exitConfigError := by
  obtain ⟨tv, htv⟩ := Option.isSome_iff_exists.mp hth
  simp only [resolveTheme, requireKey, htv] at he
  cases tv with
  | str s =>
    simp only [asPathName] at he
    by_cases h1 : fs.themeDirExists s = false
    · rw [if_pos h1] at he
      injection he with h
      subst h
      simp [BuildOutcome.exitCode, exitMissingTheme, exitConfigError]
    · rw [if_neg h1] at he
      by_cases h2 : fs.themeFileExists s = false
      · rw [if_pos h2] at he
        injection he with h
        subst h
        simp [BuildOutcome.exitCode, exitMissingTheme, exitConfigError]
      · rw [if_neg h2] at he
        exact Except.noConfusion he
  | int n =>
    simp only [asPathName] at he
    injection he with h
    subst h
    simp [BuildOutcome.exitCode]
  | null =>
    simp only [asPathName] at he
    injection he with h
    subst h
    simp [BuildOutcome.exitCode]
  | map m =>
    simp only [asPathName] at he
    injection he with h
    subst h
    simp [BuildOutcome.exitCode]

theorem resolveFont_error_code {fs : FS} {look : List (List Char × Y)} {o : BuildOutcome}
    (hth : (lookupY look ("theme".toList)).isSome = true)
    (he : resolveFont fs look = .error o) :
    o.exitCode ≠ some exitConfigError := by
  obtain ⟨tv, htv⟩ := Option.isSome_iff_exists.mp hth
  simp only [resolveFont, htv] at he
  cases hfo : lookupY look ("font".toList) with
  | none =>
    rw [hfo] at he
    injection he with h
    subst h
    simp [BuildOutcome.exitCode]
  | some fv =>
    rw [hfo] at he
    cases fv with
    | str s =>
      simp only [asPathName] at he
      by_cases h1 : fs.fontDirExists s = false
      · rw [if_pos h1] at he
        injection he with h
        subst h
        simp [BuildOutcome.exitCode, exitMissingFont, exitConfigError]
      · rw [if_neg h1] at he
        by_cases h2 : fs.fontFileExists s = false
        · rw [if_pos h2] at he
          injection he with h
          subst h
          simp [BuildOutcome.exitCode, exitMissingFont, exitConfigError]
        · rw [if_neg h2] at he
          exact Except.noConfusion he
    | int n =>
      simp only [asPathName] at he
      injection he with h
      subst h
      simp [BuildOutcome.exitCode]
    | null =>
      simp only [asPathName] at he
      injection he with h
      subst h
      simp [BuildOutcome.exitCode]
    | map m =>
      simp only [asPathName] at he
      injection he with h
      subst h
      simp [BuildOutcome.exitCode]

theorem resolveImage_error_code {fs : FS} {look : List (List Char × Y)} {o : BuildOutcome}
    (him : (lookupY look ("image".toList)).isSome = true)
    (he : resolveImage fs look = .error o) :
    o.exitCode ≠ some exitConfigError := by
  obtain ⟨iv, hiv⟩ := Option.isSome_iff_exists.mp him
  simp only [resolveImage, requireKey, hiv] at he
  cases iv with
  | str s =>
    simp only [asPathName] at he
    by_cases h1 : fs.imageExists s = false
    · rw [if_pos h1] at he
      injection he with h
      subst h
      simp [BuildOutcome.exitCode, exitMissingImage, exitConfigError]
    · rw [if_neg h1] at he
      exact Except.noConfusion he
  | int n =>
    simp only [asPathName] at he
    injection he with h
    subst h
    simp [BuildOutcome.exitCode]
  | null =>
    simp only [asPathName] at he
    injection he with h
    subst h
    simp [BuildOutcome.exitCode]
  | map m =>
    simp only [asPathName] at he
    injection he with h
    subst h
    simp [BuildOutcome.exitCode]

theorem composePage_error_raised :
    ∀ (vals : List (List Char × Y)) (t : List Char) (o : BuildOutcome),
      composePage t vals = .error o → o = .raised .typeError := by
  intro vals
  induction vals with
  | nil => intro t o h; exact Except.noConfusion h
  | cons kv rest ih =>
    intro t o h
    obtain ⟨key, v⟩ := kv
    cases v with
    | str s => exact ih _ o h
    | int n =>
      injection h with h'
      exact h'.symm
    | null =>
      injection h with h'
      exact h'.symm
    | map m =>
      injection h with h'
      exact h'.symm

/-- C5 (amended): present configuration values are never type- or
range-checked, with the single exception of `sections`, which must be a
mapping (line 174).  For every configuration in which all required key-paths
are present and `sections` is a mapping, no run terminates with the
configuration-error exit status: whatever the types of the other values,
either the run proceeds or it fails downstream (a different exit status or
an uncaught exception), never with `config_error`. -/
theorem c5_values_not_type_checked (fs : FS)
    (cm look pm sm secm : List (List Char × Y))
    (hconf : fs.configExists = true)
    (hlook : lookupY cm ("look".toList) = some (Y.map look))
    (hth : (lookupY look ("theme".toList)).isSome = true)
    (hfo : (lookupY look ("font".toList)).isSome = true)
    (him : (lookupY look ("image".toList)).isSome = true)
    (hme : (lookupY look ("message".toList)).isSome = true)
    (hpage : lookupY cm ("page".toList) = some (Y.map pm))
    (hlang : (lookupY pm ("lang".toList)).isSome = true)
    (hti : (lookupY pm ("title".toList)).isSome = true)
    (hsearch : lookupY cm ("search".toList) = some (Y.map sm))
    (hph : (lookupY sm ("placeholder".toList)).isSome = true)
    (hsec : lookupY cm ("sections".toList) = some (Y.map secm)) :
    (build fs (Y.map cm)).exitCode ≠ some exitConfigError := by
  obtain ⟨mev, hmev⟩ := Option.isSome_iff_exists.mp hme
  obtain ⟨lav, hlav⟩ := Option.isSome_iff_exists.mp hlang
  obtain ⟨tiv, htiv⟩ := Option.isSome_iff_exists.mp hti
  obtain ⟨phv, hphv⟩ := Option.isSome_iff_exists.mp hph
  unfold build
  by_cases hidx : fs.indexExists = false
  · rw [if_pos hidx]
    simp [BuildOutcome.exitCode, exitMissingSourceFile, exitConfigError]
  rw [if_neg hidx]
  by_cases hsty : fs.styleExists = false
  · rw [if_pos hsty]
    simp [BuildOutcome.exitCode, exitMissingSourceFile, exitConfigError]
  rw [if_neg hsty]
  rw [if_neg (show ¬ fs.configExists = false by rw [hconf]; simp)]
  simp only [asContainerMap, requireKey_found hlook, requireKey_found hmev,
    requireKey_found hpage, requireKey_found hlav, requireKey_found htiv,
    requireKey_found hsearch, requireKey_found hphv, requireKey_found hsec]
  split
  next o heq => exact resolveTheme_error_code hth heq
  next tn heq =>
    split
    next o heq2 => exact resolveFont_error_code hth heq2
    next fn heq2 =>
      split
      next o heq3 => exact resolveImage_error_code him heq3
      next ip heq3 =>
        split
        next e heq4 =>
          simp [BuildOutcome.exitCode, exitSassFailure, exitConfigError]
        next css heq4 =>
          split
          next e heq5 => simp [BuildOutcome.exitCode]
          next shtml heq5 =>
            split
            next o heq6 =>
              rw [composePage_error_raised _ _ _ heq6]
              simp [BuildOutcome.exitCode]
            next content heq6 => simp [BuildOutcome.exitCode]

/-- C7: once the pipeline reaches stylesheet compilation, the source handed
to the compiler is exactly the theme stylesheet, the font stylesheet and the
base stylesheet concatenated in that order with newline separators; if the
compiler reports an error `e`, the run prints the error text and terminates
with the dedicated stylesheet-failure status, producing no output file (the
outcome is an exit, not a completed run with writes). -/
theorem c7_sass_input_and_failure (fs : FS)
    (cm look pm sm : List (List Char × Y))
    (tn fn ip : List Char) (mev lav tiv phv : Y) (e : List Char)
    (hidx : fs.indexExists = true) (hsty : fs.styleExists = true)
    (hconf : fs.configExists = true)
    (hlook : lookupY cm ("look".toList) = some (Y.map look))
    (hthv : lookupY look ("theme".toList) = some (Y.str tn))
    (htd : fs.themeDirExists tn = true) (htf : fs.themeFileExists tn = true)
    (hfov : lookupY look ("font".toList) = some (Y.str fn))
    (hfd : fs.fontDirExists fn = true) (hff : fs.fontFileExists fn = true)
    (himv : lookupY look ("image".toList) = some (Y.str ip))
    (hie : fs.imageExists ip = true)
    (hmev : lookupY look ("message".toList) = some mev)
    (hpage : lookupY cm ("page".toList) = some (Y.map pm))
    (hlav : lookupY pm ("lang".toList) = some lav)
    (htiv : lookupY pm ("title".toList) = some tiv)
    (hsearch : lookupY cm ("search".toList) = some (Y.map sm))
    (hphv : lookupY sm ("placeholder".toList) = some phv)
    (hsass : fs.sassCompile
        (fs.themeContent tn ++ '\n' :: (fs.fontContent fn ++ '\n' :: fs.styleContent)) =
      .error e) :
    build fs (Y.map cm) = .exited exitSassFailure (sassFailureMsg e) := by
  unfold build
  rw [if_neg (show ¬ fs.indexExists = false by rw [hidx]; simp)]
  rw [if_neg (show ¬ fs.styleExists = false by rw [hsty]; simp)]
  rw [if_neg (show ¬ fs.configExists = false by rw [hconf]; simp)]
  simp only [asContainerMap, requireKey_found hlook,
    resolveTheme_ok hthv htd htf, resolveFont_ok hthv hfov hfd hff,
    resolveImage_ok himv hie, requireKey_found hmev, requireKey_found hpage,
    requireKey_found hlav, requireKey_found htiv, requireKey_found hsearch,
    requireKey_found hphv, styleSource, hsass]

/-- C7 witness: a concrete run in which the compiler fails. -/
theorem c7_witness :
    fsSassErr.sassCompile
        (fsSassErr.themeContent ("t".toList) ++ '\n' ::
          (fsSassErr.fontContent ("f".toList) ++ '\n' :: fsSassErr.styleContent)) =
      .error ("boom".toList) ∧
    build fsSassErr (Y.map cmFull) = .exited exitSassFailure (sassFailureMsg ("boom".toList)) :=
  ⟨rfl, c7_sass_input_and_failure fsSassErr cmFull lookFull pmFull smFull
    ("t".toList) ("f".toList) ("i".toList)
    (Y.str ("hi".toList)) (Y.str ("en".toList)) (Y.str ("ti".toList)) (Y.str ("go".toList))
    ("boom".toList)
    rfl rfl rfl rfl rfl rfl rfl rfl rfl rfl rfl rfl rfl rfl rfl rfl rfl rfl rfl⟩

theorem tokenOf_ne_nil (k : List Char) : tokenOf k ≠ [] := by
  simp [tokenOf]

theorem composePage_all_str (t la css ti du me sh ph : List Char) :
    composePage t (replacementValues (.str la) css (.str ti) du (.str me) sh (.str ph)) =
      .ok (applyReplacements t (replacementMap
        { lang := la, styles := css, title := ti, image := du,
          message := me, sections := sh, searchPlaceholder := ph })) := rfl

/-- C6 (amended): a complete run writes exactly one output file, at the fixed
distribution path, creating the distribution directory exactly when it was
absent; and when each of the seven computed values blocks every placeholder
token (non-empty, first and last characters outside every token, no token
inside it), the written content contains no occurrence of any of the seven
placeholder tokens.  (Without the blocking condition a computed value can
re-introduce a token into the output; see the counterexample.) -/
theorem c6_single_write_no_tokens (fs : FS)
    (cm look pm sm secm : List (List Char × Y))
    (tn fn ip la ti me ph css shtml pageContent : List Char)
    (hidx : fs.indexExists = true) (hsty : fs.styleExists = true)
    (hconf : fs.configExists = true)
    (hlook : lookupY cm ("look".toList) = some (Y.map look))
    (hthv : lookupY look ("theme".toList) = some (Y.str tn))
    (htd : fs.themeDirExists tn = true) (htf : fs.themeFileExists tn = true)
    (hfov : lookupY look ("font".toList) = some (Y.str fn))
    (hfd : fs.fontDirExists fn = true) (hff : fs.fontFileExists fn = true)
    (himv : lookupY look ("image".toList) = some (Y.str ip))
    (hie : fs.imageExists ip = true)
    (hmev : lookupY look ("message".toList) = some (Y.str me))
    (hpage : lookupY cm ("page".toList) = some (Y.map pm))
    (hlav : lookupY pm ("lang".toList) = some (Y.str la))
    (htiv : lookupY pm ("title".toList) = some (Y.str ti))
    (hsearch : lookupY cm ("search".toList) = some (Y.map sm))
    (hphv : lookupY sm ("placeholder".toList) = some (Y.str ph))
    (hsass : fs.sassCompile
        (fs.themeContent tn ++ '\n' :: (fs.fontContent fn ++ '\n' :: fs.styleContent)) =
      .ok css)
    (hsec : lookupY cm ("sections".toList) = some (Y.map secm))
    (hloop : sectionsLoop secm 0 = .ok shtml)
    (hpc : pageContent = applyReplacements fs.indexContent (replacementMap
      { lang := la, styles := css, title := ti,
        image := image_to_data_url (fs.mimeOf ip) (fs.imageBytes ip),
        message := me, sections := shtml, searchPlaceholder := ph }))
    (hblocks : ∀ v ∈ [la, css, ti, image_to_data_url (fs.mimeOf ip) (fs.imageBytes ip),
        me, shtml, ph], ∀ tok ∈ tokensList, blocksTokB v tok = true) :
    build fs (Y.map cm) = .finished (!fs.distDirExists) [(distIndexPath, pageContent)] ∧
    ∀ tok ∈ tokensList, ¬ tok <:+: pageContent := by
  subst hpc
  constructor
  · unfold build
    rw [if_neg (show ¬ fs.indexExists = false by rw [hidx]; simp)]
    rw [if_neg (show ¬ fs.styleExists = false by rw [hsty]; simp)]
    rw [if_neg (show ¬ fs.configExists = false by rw [hconf]; simp)]
    simp only [asContainerMap, requireKey_found hlook,
      resolveTheme_ok hthv htd htf, resolveFont_ok hthv hfov hfd hff,
      resolveImage_ok himv hie, requireKey_found hmev, requireKey_found hpage,
      requireKey_found hlav, requireKey_found htiv, requireKey_found hsearch,
      requireKey_found hphv, styleSource, hsass, requireKey_found hsec, hloop,
      composePage_all_str]
  · set rv : RepVals :=
      { lang := la, styles := css, title := ti,
        image := image_to_data_url (fs.mimeOf ip) (fs.imageBytes ip),
        message := me, sections := shtml, searchPlaceholder := ph } with hrv
    have hB : ∀ kv ∈ replacementMap rv, ∀ kv' ∈ replacementMap rv,
        blocksTokB kv.2 (tokenOf kv'.1) = true := by
      intro kv hkv kv' hkv'
      simp only [replacementMap, List.mem_cons, List.not_mem_nil, or_false] at hkv hkv'
      have htok : tokenOf kv'.1 ∈ tokensList := by
        rcases hkv' with rfl | rfl | rfl | rfl | rfl | rfl | rfl <;> (dsimp only; decide)
      have hval : kv.2 ∈ [la, css, ti,
          image_to_data_url (fs.mimeOf ip) (fs.imageBytes ip), me, shtml, ph] := by
        rcases hkv with rfl | rfl | rfl | rfl | rfl | rfl | rfl <;> simp [hrv]
      exact hblocks _ hval _ htok
    have hne : ∀ kv ∈ replacementMap rv, tokenOf kv.1 ≠ [] :=
      fun kv _ => tokenOf_ne_nil kv.1
    have H := applyReplacements_no_tok (replacementMap rv) fs.indexContent hB hne
    intro tok htok
    fin_cases htok
    · exact H (("LANG".toList, rv.lang)) (by simp [replacementMap])
    · exact H (("STYLES".toList, rv.styles)) (by simp [replacementMap])
    · exact H (("TITLE".toList, rv.title)) (by simp [replacementMap])
    · exact H (("IMAGE".toList, rv.image)) (by simp [replacementMap])
    · exact H (("MESSAGE".toList, rv.message)) (by simp [replacementMap])
    · exact H (("SECTIONS".toList, rv.sections)) (by simp [replacementMap])
    · exact H (("SEARCH_PLACEHOLDER".toList, rv.searchPlaceholder)) (by simp [replacementMap])

set_option maxRecDepth 8000 in
/-- C6 (counterexample to the claim as stated): a complete run in which the
configured welcome message itself contains the `LANG` placeholder token; the
single written output file still contains that token, because the `LANG`
pass has already run when the message is substituted. -/
theorem c6_counterexample :
    build fsAll (Y.map cmTok) =
      .finished true [(distIndexPath, pageContentTok)] ∧
    "BUILDER:LANG".toList <:+: pageContentTok := by
  decide

/-- C6 witness: a complete concrete run whose single write is token-free. -/
theorem c6_witness :
    sectionsLoop secsFull 0 = .ok shtmlC6 ∧
    (∀ v ∈ ["en".toList, "c".toList, "ti".toList,
        image_to_data_url (fsAll.mimeOf ("i".toList)) (fsAll.imageBytes ("i".toList)),
        "hi".toList, shtmlC6, "go".toList],
      ∀ tok ∈ tokensList, blocksTokB v tok = true) ∧
    (build fsAll (Y.map cmFull) =
        .finished (!fsAll.distDirExists) [(distIndexPath, pageContentC6)] ∧
      ∀ tok ∈ tokensList, ¬ tok <:+: pageContentC6) :=
  ⟨rfl, by decide,
    c6_single_write_no_tokens fsAll cmFull lookFull pmFull smFull secsFull
      ("t".toList) ("f".toList) ("i".toList) ("en".toList) ("ti".toList)
      ("hi".toList) ("go".toList) ("c".toList) shtmlC6 pageContentC6
      rfl rfl rfl rfl rfl rfl rfl rfl rfl rfl rfl rfl rfl rfl rfl rfl rfl rfl
      rfl rfl rfl rfl (by decide)⟩

/-- C10: when the pipeline reaches section rendering and some link's data
mapping lacks an `icon` or `url` entry (all link data being mappings), the
run dies with an uncaught `KeyError` — not with the configuration-error
message and exit status, nor any other clean exit: inner link fields are
never validated for presence. -/
theorem c10_missing_link_field_raises (fs : FS)
    (cm look pm sm secm : List (List Char × Y))
    (tn fn ip : List Char) (mev lav tiv phv : Y) (css : List Char)
    (hidx : fs.indexExists = true) (hsty : fs.styleExists = true)
    (hconf : fs.configExists = true)
    (hlook : lookupY cm ("look".toList) = some (Y.map look))
    (hthv : lookupY look ("theme".toList) = some (Y.str tn))
    (htd : fs.themeDirExists tn = true) (htf : fs.themeFileExists tn = true)
    (hfov : lookupY look ("font".toList) = some (Y.str fn))
    (hfd : fs.fontDirExists fn = true) (hff : fs.fontFileExists fn = true)
    (himv : lookupY look ("image".toList) = some (Y.str ip))
    (hie : fs.imageExists ip = true)
    (hmev : lookupY look ("message".toList) = some mev)
    (hpage : lookupY cm ("page".toList) = some (Y.map pm))
    (hlav : lookupY pm ("lang".toList) = some lav)
    (htiv : lookupY pm ("title".toList) = some tiv)
    (hsearch : lookupY cm ("search".toList) = some (Y.map sm))
    (hphv : lookupY sm ("placeholder".toList) = some phv)
    (hsass : fs.sassCompile
        (fs.themeContent tn ++ '\n' :: (fs.fontContent fn ++ '\n' :: fs.styleContent)) =
      .ok css)
    (hsec : lookupY cm ("sections".toList) = some (Y.map secm))
    (hws : sectionsWellShaped secm = true)
    (hmiss : someLinkFieldMissing secm = true) :
    (∃ k, build fs (Y.map cm) = .raised (.keyError k)) ∧
    ∀ code msg, build fs (Y.map cm) ≠ .exited code msg := by
  obtain ⟨k, hk⟩ := sectionsLoop_keyError secm 0 hws hmiss
  have hbuild : build fs (Y.map cm) = .raised (.keyError k) := by
    unfold build
    rw [if_neg (show ¬ fs.indexExists = false by rw [hidx]; simp)]
    rw [if_neg (show ¬ fs.styleExists = false by rw [hsty]; simp)]
    rw [if_neg (show ¬ fs.configExists = false by rw [hconf]; simp)]
    simp only [asContainerMap, requireKey_found hlook,
      resolveTheme_ok hthv htd htf, resolveFont_ok hthv hfov hfd hff,
      resolveImage_ok himv hie, requireKey_found hmev, requireKey_found hpage,
      requireKey_found hlav, requireKey_found htiv, requireKey_found hsearch,
      requireKey_found hphv, styleSource, hsass, requireKey_found hsec, hk]
  exact ⟨⟨k, hbuild⟩, fun code msg hcontra => by
    rw [hbuild] at hcontra
    exact BuildOutcome.noConfusion hcontra⟩

/-- C10 witness: a concrete run whose only flaw is one link lacking `url`;
the run ends in an uncaught `KeyError`. -/
theorem c10_witness :
    sectionsWellShaped secsNoUrl = true ∧
    someLinkFieldMissing secsNoUrl = true ∧
    ((∃ k, build fsAll (Y.map cmNoUrl) = .raised (.keyError k)) ∧
      ∀ code msg, build fsAll (Y.map cmNoUrl) ≠ .exited code msg) :=
  ⟨by decide, by decide,
    c10_missing_link_field_raises fsAll cmNoUrl lookFull pmFull smFull secsNoUrl
      ("t".toList) ("f".toList) ("i".toList)
      (Y.str ("hi".toList)) (Y.str ("en".toList)) (Y.str ("ti".toList)) (Y.str ("go".toList))
      ("c".toList)
      rfl rfl rfl rfl rfl rfl rfl rfl rfl rfl rfl rfl rfl rfl rfl rfl rfl rfl rfl rfl
      (by decide) (by decide)⟩

/-- C1 (the code contradicts the claim for `look/font`): with every other
part of the configuration and filesystem in order but `look/font` absent,
the run does not print a message naming `look/font` and exit with the
configuration-error status; the guard at line 91 re-checks `look/theme`, so
the subscript at line 94 raises an uncaught `KeyError("font")`. -/
theorem c1_missing_font_key_raises :
    build fsAll (Y.map cmNoFont) = .raised (.keyError ("font".toList)) := by
  decide

/-- C2 (counterexample to the claim as stated): the two missing-dependency
guards do not use two distinct codes — both exit with status 1. -/
theorem c2_counterexample : exitPyyamlMissing = exitLibsassMissing := rfl

/-- C2 (amended): the two missing-dependency exits share status 1; a missing
`index.html`/`style.scss` uses 2; a missing configuration file uses 3, the
same status as configuration/key errors; missing theme, font, image and
stylesheet-compilation failure use 4, 5, 6 and 7; and the six classes other
than the dependency guards are pairwise distinct. -/
theorem c2_exit_codes :
    exitPyyamlMissing = 1 ∧ exitLibsassMissing = 1 ∧
    exitMissingSourceFile = 2 ∧ exitMissingConfigFile = 3 ∧
    exitConfigError = 3 ∧ exitMissingConfigFile = exitConfigError ∧
    exitMissingTheme = 4 ∧ exitMissingFont = 5 ∧ exitMissingImage = 6 ∧
    exitSassFailure = 7 ∧
    List.Pairwise (· ≠ ·)
      [exitMissingSourceFile, exitConfigError, exitMissingTheme,
        exitMissingFont, exitMissingImage, exitSassFailure] := by
  decide

/-- C5 (counterexample to the claim as stated): a configuration in which
every required key-path is present — `sections` included, as a string — is
nevertheless rejected with the configuration-error exit status, because the
`sections` value is type-checked by the `isinstance` test of line 174. -/
theorem c5_counterexample :
    (lookupY cmSectionsStr ("look".toList)).isSome = true ∧
    (lookupY lookFull ("theme".toList)).isSome = true ∧
    (lookupY lookFull ("font".toList)).isSome = true ∧
    (lookupY lookFull ("image".toList)).isSome = true ∧
    (lookupY lookFull ("message".toList)).isSome = true ∧
    (lookupY cmSectionsStr ("page".toList)).isSome = true ∧
    (lookupY pmFull ("lang".toList)).isSome = true ∧
    (lookupY pmFull ("title".toList)).isSome = true ∧
    (lookupY cmSectionsStr ("search".toList)).isSome = true ∧
    (lookupY smFull ("placeholder".toList)).isSome = true ∧
    (lookupY cmSectionsStr ("sections".toList)).isSome = true ∧
    (build fsAll (Y.map cmSectionsStr)).exitCode = some exitConfigError := by
  decide

/-- C5 witness: every required key-path present, `sections` a mapping, but
all the other values of scrambled types; the run does not exit with the
configuration-error status. -/
theorem c5_witness :
    lookupY cmOdd ("look".toList) = some (Y.map lookOdd) ∧
    (lookupY lookOdd ("theme".toList)).isSome = true ∧
    (lookupY lookOdd ("font".toList)).isSome = true ∧
    (lookupY lookOdd ("image".toList)).isSome = true ∧
    (lookupY lookOdd ("message".toList)).isSome = true ∧
    lookupY cmOdd ("sections".toList) = some (Y.map []) ∧
    (build fsAll (Y.map cmOdd)).exitCode ≠ some exitConfigError :=
  ⟨rfl, rfl, rfl, rfl, rfl, rfl,
    c5_values_not_type_checked fsAll cmOdd lookOdd
      [ ("lang".toList, .int 1), ("title".toList, .null) ]
      [ ("placeholder".toList, .int 2) ] []
      rfl rfl rfl rfl rfl rfl rfl rfl rfl rfl rfl rfl⟩

/-! ## base64 round trip and the image inliner -/

theorem b64_index_char : ∀ n, n < 64 → b64CharIndex (b64Char n) = n := by
  decide

theorem b64_char_ne_pad : ∀ n, n < 64 → b64Char n ≠ '=' := by
  decide

theorem b64_roundtrip :
    ∀ (bs : List Nat), (∀ b ∈ bs, b < 256) → b64decode (b64encode bs) = bs := by
  have key : ∀ (n : Nat) (bs : List Nat), bs.length ≤ n → (∀ b ∈ bs, b < 256) →
      b64decode (b64encode bs) = bs := by
    intro n
    induction n with
    | zero =>
      intro bs hl _
      have hbs : bs = [] := List.eq_nil_of_length_eq_zero (Nat.le_zero.mp hl)
      subst hbs
      rfl
    | succ n ih =>
      intro bs hl hb
      rcases bs with _ | ⟨a, bs1⟩
      · rfl
      rcases bs1 with _ | ⟨b, bs2⟩
      · have ha : a < 256 := hb a (by simp)
        simp only [b64encode, b64decode]
        rw [if_pos trivial]
        rw [b64_index_char (a / 4) (by omega), b64_index_char (a % 4 * 16) (by omega)]
        simp only [List.cons.injEq, and_true]
        omega
      rcases bs2 with _ | ⟨c, rest⟩
      · have ha : a < 256 := hb a (by simp)
        have hbb : b < 256 := hb b (by simp)
        simp only [b64encode, b64decode]
        rw [if_neg (b64_char_ne_pad (b % 16 * 4) (by omega))]
        rw [if_pos trivial]
        rw [b64_index_char (a / 4) (by omega),
          b64_index_char (a % 4 * 16 + b / 16) (by omega),
          b64_index_char (b % 16 * 4) (by omega)]
        simp only [List.cons.injEq, and_true]
        omega
      · have ha : a < 256 := hb a (by simp)
        have hbb : b < 256 := hb b (by simp)
        have hc : c < 256 := hb c (by simp)
        simp only [b64encode, List.cons_append, List.nil_append, b64decode]
        rw [if_neg (b64_char_ne_pad (b % 16 * 4 + c / 64) (by omega))]
        rw [if_neg (b64_char_ne_pad (c % 64) (by omega))]
        rw [b64_index_char (a / 4) (by omega),
          b64_index_char (a % 4 * 16 + b / 16) (by omega),
          b64_index_char (b % 16 * 4 + c / 64) (by omega),
          b64_index_char (c % 64) (by omega)]
        simp only [List.append_eq, List.nil_append]
        rw [ih rest (by simp only [List.length_cons] at hl; omega)
          (fun x hx => hb x (by simp [hx]))]
        simp only [List.cons.injEq, and_true]
        refine ⟨by omega, by omega, by omega⟩
  intro bs
  exact key bs.length bs le_rfl

/-- C8: for a recognized MIME type, `image_to_data_url` returns
`data:<mimetype>;base64,<payload>` where the payload is the base64 encoding
of the file's bytes, decoding back to exactly those bytes, and is non-empty
whenever the file is. -/
theorem c8_data_url_roundtrip (m : List Char) (bytes : List Nat)
    (h : ∀ b ∈ bytes, b < 256) :
    image_to_data_url (some m) bytes =
      "data:".toList ++ m ++ ";base64,".toList ++ b64encode bytes ∧
    b64decode (b64encode bytes) = bytes ∧
    (bytes ≠ [] → b64encode bytes ≠ []) := by
  refine ⟨rfl, b64_roundtrip bytes h, ?_⟩
  intro hne
  rcases bytes with _ | ⟨a, bs1⟩
  · exact absurd rfl hne
  rcases bs1 with _ | ⟨b, bs2⟩
  · simp [b64encode]
  rcases bs2 with _ | ⟨c, rest⟩
  · simp [b64encode]
  · simp [b64encode]

/-- C8 witness: the PNG signature bytes with the `image/png` MIME type. -/
theorem c8_witness :
    (∀ b ∈ png1x1Bytes, b < 256) ∧
    (image_to_data_url (some ("image/png".toList)) png1x1Bytes =
        "data:".toList ++ "image/png".toList ++ ";base64,".toList ++
          b64encode png1x1Bytes ∧
      b64decode (b64encode png1x1Bytes) = png1x1Bytes ∧
      (png1x1Bytes ≠ [] → b64encode png1x1Bytes ≠ [])) :=
  ⟨by decide, c8_data_url_roundtrip ("image/png".toList) png1x1Bytes (by decide)⟩

/-- C9: for a file whose extension has no recognized MIME type
(`mimetypes.guess_type` returns `None`), `image_to_data_url` renders the
missing type as the literal text `None`: the result always begins with
`data:None;base64,`. -/
theorem c9_unrecognized_mime_renders_none (bytes : List Nat) :
    "data:None;base64,".toList <+: image_to_data_url none bytes :=
  ⟨b64encode bytes, rfl⟩

end YASP
